import Mathlib

/-!
# Verification of the resume-analysis pipeline (`backend/applicants/ai_service.py`)

Shallow embedding of the response-normalisation and orchestration logic of the
applicant-tracking backend.  Text is modelled as `List Char` (Python `str`),
JSON values as the inductive `Json` (the integer-numeral fragment of what
Python's `json.loads` produces), and fallible Python code as `Except`.
Each definition is a direct transliteration of the corresponding Python
function; effectful collaborators (Gemini API configuration, the network
call, file reads, file upload) enter as explicit `Except`-valued arguments.
-/

namespace AtsPipeline

/-- JSON values as produced by `json.loads`, restricted to integer numerals;
objects keep their members in source order (duplicate keys allowed: the last
occurrence wins on lookup, as in a Python dict built by `json.loads`). -/
inductive Json where
  | null : Json
  | bool : Bool → Json
  | num : Int → Json
  | str : String → Json
  | arr : List Json → Json
  | obj : List (String × Json) → Json

/-- Python exceptions that the normaliser can raise, with `str(e)` payloads. -/
inductive PyError where
  | jsonDecode : List Char → PyError
  | typeError : List Char → PyError
  | attributeError : List Char → PyError
deriving DecidableEq

/-- `str(e)` of a modelled Python exception. -/
def PyError.msg : PyError → List Char
  | .jsonDecode m => m
  | .typeError m => m
  | .attributeError m => m

/-- Characters stripped by Python's `str.strip()` (ASCII whitespace). -/
def pyWs (c : Char) : Bool :=
  c = ' ' || c = '\t' || c = '\n' || c = '\r' || c = '\x0b' || c = '\x0c'

/-- Python `str.lstrip()`. -/
def lstrip (l : List Char) : List Char := l.dropWhile pyWs

/-- Python `str.rstrip()`. -/
def rstrip (l : List Char) : List Char := (l.reverse.dropWhile pyWs).reverse

/-- Python `str.strip()`. -/
def pyStrip (l : List Char) : List Char := rstrip (lstrip l)

/-- Python `str.startswith`. -/
def startsWith (p l : List Char) : Bool := p.isPrefixOf l

/-- Python `str.endswith`. -/
def endsWith (s l : List Char) : Bool := s.isSuffixOf l

/-- The 7-character opening marker `'```json'` tested first by the cleaner. -/
def jsonMarker : List Char := ['`', '`', '`', 'j', 's', 'o', 'n']

/-- The 3-character fence marker `'```'`. -/
def fenceMarker : List Char := ['`', '`', '`']

/-- Fence-stripping step shared by `_parse_gemini_response` and
`_parse_job_match_response` (lines 85-90 / 243-248): strip a leading
```` ```json ```` (7 chars), else a leading ```` ``` ```` (3 chars), then a
trailing ```` ``` ```` (3 chars, Python `cleaned_text[:-3]`). -/
def stripFences (s : List Char) : List Char :=
  let s1 := if startsWith jsonMarker s then s.drop 7
            else if startsWith fenceMarker s then s.drop 3
            else s
  if endsWith fenceMarker s1 then s1.take (s1.length - 3) else s1

/-- The full cleaning pipeline applied to the raw reply before `json.loads`:
`text.strip()`, fence stripping, `strip()` again. -/
def clean (t : List Char) : List Char := pyStrip (stripFences (pyStrip t))

/-- Lookup in a parsed JSON object, last occurrence of the key winning
(a Python dict built from duplicate keys keeps the last value). -/
def jget (fields : List (String × Json)) (k : String) : Option Json :=
  fields.reverse.lookup k

/-- Python `analysis.get(k, d)`. -/
def jgetD (fields : List (String × Json)) (k : String) (d : Json) : Json :=
  (jget fields k).getD d

/-- Python truthiness of a JSON value (`bool(x)`). -/
def jsonTruthy : Json → Bool
  | .null => false
  | .bool b => b
  | .num n => n ≠ 0
  | .str s => s ≠ ""
  | .arr xs => !xs.isEmpty
  | .obj fs => !fs.isEmpty

/-- Python `min(100, max(0, v))` on the value fetched for a score field.
Defined for ints and bools (`True == 1`, `False == 0`); any other operand
raises `TypeError`, exactly as CPython's comparison does. -/
def clampScore : Json → Except PyError Int
  | .num n => .ok (min 100 (max 0 n))
  | .bool b => .ok (min 100 (max 0 (if b then (1 : Int) else 0)))
  | _ => .error (.typeError ("unorderable types for max".toList))

/-- Python `(v or [])[:n]` on the value fetched for a sequence field:
falsy values are replaced by `[]`; lists and strings slice; any other truthy
value raises `TypeError` when sliced. -/
def sliceField (v : Json) (n : Nat) : Except PyError Json :=
  let w := if jsonTruthy v then v else Json.arr []
  match w with
  | .arr xs => .ok (.arr (xs.take n))
  | .str s => .ok (.str (String.mk (s.toList.take n)))
  | _ => .error (.typeError ("unsliceable operand".toList))

/-- JSON document whitespace skipped between tokens by `json.loads`. -/
def jsonWs (c : Char) : Bool := c = ' ' || c = '\t' || c = '\n' || c = '\r'

/-- Characters reachable through a one-character string escape. -/
def escChar : Char → Option Char
  | '"' => some '"'
  | '\\' => some '\\'
  | '/' => some '/'
  | 'b' => some '\x08'
  | 'f' => some '\x0c'
  | 'n' => some '\n'
  | 'r' => some '\r'
  | 't' => some '\t'
  | _ => none

/-- Body of a JSON string after its opening quote: returns the decoded
characters and the input following the closing quote. -/
def parseStringBody : List Char → Except (List Char) (List Char × List Char)
  | [] => .error ("Unterminated string".toList)
  | '"' :: rest => .ok ([], rest)
  | '\\' :: rest =>
    match rest with
    | [] => .error ("Unterminated string".toList)
    | e :: rest' =>
      match escChar e with
      | some c =>
        match parseStringBody rest' with
        | .ok (s, r) => .ok (c :: s, r)
        | .error m => .error m
      | none => .error ("Invalid escape".toList)
  | c :: rest =>
    match parseStringBody rest with
    | .ok (s, r) => .ok (c :: s, r)
    | .error m => .error m

/-- Digit run to a natural number. -/
def digitsToNat (ds : List Char) : Nat :=
  ds.foldl (fun a c => 10 * a + (c.toNat - 48)) 0

/-- An integer numeral after an optional leading minus sign.  As in CPython's
scanner a leading `0` matches only the single digit `0`; whatever follows is
left for the caller (and typically rejected as extra data). -/
def parseIntNumeral (l : List Char) (neg : Bool) : Except (List Char) (Json × List Char) :=
  let ds := l.takeWhile Char.isDigit
  let rest := l.dropWhile Char.isDigit
  match ds with
  | [] => .error ("Expecting value".toList)
  | d :: ds' =>
    if d = '0' then .ok (.num 0, ds' ++ rest)
    else
      let v : Int := Int.ofNat (digitsToNat ds)
      .ok (.num (if neg then -v else v), rest)

mutual

/-- One JSON value, fuel-indexed: models `json.loads`'s recursive-descent
scanner on the integer-numeral fragment (no floats). -/
def parseValue : Nat → List Char → Except (List Char) (Json × List Char)
  | 0, _ => .error ("Nesting too deep".toList)
  | Nat.succ fuel, l =>
    match l.dropWhile jsonWs with
    | [] => .error ("Expecting value".toList)
    | '{' :: r =>
      (match r.dropWhile jsonWs with
       | '}' :: r2 => .ok (.obj [], r2)
       | _ => match parseMembers fuel r with
              | .ok (ms, r2) => .ok (.obj ms, r2)
              | .error m => .error m)
    | '[' :: r =>
      (match r.dropWhile jsonWs with
       | ']' :: r2 => .ok (.arr [], r2)
       | _ => match parseElements fuel r with
              | .ok (xs, r2) => .ok (.arr xs, r2)
              | .error m => .error m)
    | '"' :: r =>
      (match parseStringBody r with
       | .ok (s, r2) => .ok (.str (String.mk s), r2)
       | .error m => .error m)
    | 't' :: 'r' :: 'u' :: 'e' :: r => .ok (.bool true, r)
    | 'f' :: 'a' :: 'l' :: 's' :: 'e' :: r => .ok (.bool false, r)
    | 'n' :: 'u' :: 'l' :: 'l' :: r => .ok (.null, r)
    | '-' :: r => parseIntNumeral r true
    | c :: r =>
      if c.isDigit then parseIntNumeral (c :: r) false
      else .error ("Expecting value".toList)

/-- One or more `"key": value` members, consuming the closing `}`. -/
def parseMembers : Nat → List Char → Except (List Char) (List (String × Json) × List Char)
  | 0, _ => .error ("Nesting too deep".toList)
  | Nat.succ fuel, l =>
    match l.dropWhile jsonWs with
    | '"' :: r =>
      (match parseStringBody r with
       | .error m => .error m
       | .ok (key, r2) =>
         match r2.dropWhile jsonWs with
         | ':' :: r3 =>
           (match parseValue fuel r3 with
            | .error m => .error m
            | .ok (v, r4) =>
              match r4.dropWhile jsonWs with
              | ',' :: r5 =>
                (match parseMembers fuel r5 with
                 | .ok (ms, r6) => .ok ((String.mk key, v) :: ms, r6)
                 | .error m => .error m)
              | '}' :: r5 => .ok ([(String.mk key, v)], r5)
              | _ => .error ("Expecting delimiter".toList))
         | _ => .error ("Expecting colon delimiter".toList))
    | _ => .error ("Expecting property name".toList)

/-- One or more array elements, consuming the closing `]`. -/
def parseElements : Nat → List Char → Except (List Char) (List Json × List Char)
  | 0, _ => .error ("Nesting too deep".toList)
  | Nat.succ fuel, l =>
    match parseValue fuel l with
    | .error m => .error m
    | .ok (v, r) =>
      match r.dropWhile jsonWs with
      | ',' :: r2 =>
        (match parseElements fuel r2 with
         | .ok (xs, r3) => .ok (v :: xs, r3)
         | .error m => .error m)
      | ']' :: r2 => .ok ([v], r2)
      | _ => .error ("Expecting delimiter".toList)

end

/-- `json.loads`: a single document, with only whitespace allowed after it.
The fuel `l.length + 1` dominates the scanner's recursion depth, since every
recursive descent first consumes at least one character. -/
def parseJson (l : List Char) : Except (List Char) Json :=
  match parseValue (l.length + 1) l with
  | .error m => .error m
  | .ok (v, rest) =>
    if rest.dropWhile jsonWs = [] then .ok v else .error ("Extra data".toList)

/-- The validated record built by `_parse_gemini_response`.  String-valued
fields keep the dynamic `Json` type of the fetched value (the Python code
performs no type check on them); the score is an `Int`. -/
structure ResumeAnalysis where
  name : Json
  email : Json
  phone : Json
  priority_score : Int
  summary : Json
  key_skills : Json
  experience : Json
  education : Json
  highlights : Json
  concerns : Json

/-- The validated record built by `_parse_job_match_response`. -/
structure JobMatchAnalysis where
  job_relevancy_score : Int
  job_match_summary : Json
  skill_matches : Json
  skill_gaps : Json
  strengths : Json
  recommendations : Json

/-- The projection step of `_parse_gemini_response` (lines 97-108): the dict
literal evaluated after `json.loads` succeeds.  A non-dict parse result makes
`analysis.get` raise `AttributeError`; the fetches are evaluated in source
order. -/
def projectResume (j : Json) : Except PyError ResumeAnalysis :=
  match j with
  | Json.obj fields =>
    match clampScore (jgetD fields "priorityScore" (Json.num 50)) with
    | .error e => .error e
    | .ok score =>
      match sliceField (jgetD fields "keySkills" (Json.arr [])) 10 with
      | .error e => .error e
      | .ok ks =>
        match sliceField (jgetD fields "highlights" (Json.arr [])) 5 with
        | .error e => .error e
        | .ok hl =>
          match sliceField (jgetD fields "concerns" (Json.arr [])) 3 with
          | .error e => .error e
          | .ok cs =>
            .ok { name := jgetD fields "name" (Json.str "Unknown")
                , email := jgetD fields "email" (Json.str "unknown@example.com")
                , phone := jgetD fields "phone" Json.null
                , priority_score := score
                , summary := jgetD fields "summary" (Json.str "No summary available")
                , key_skills := ks
                , experience := jgetD fields "experience" (Json.str "Not specified")
                , education := jgetD fields "education" (Json.str "Not specified")
                , highlights := hl
                , concerns := cs }
  | _ => .error (.attributeError ("object has no attribute get".toList))

/-- The projection step of `_parse_job_match_response` (lines 255-262). -/
def projectJobMatch (j : Json) : Except PyError JobMatchAnalysis :=
  match j with
  | Json.obj fields =>
    match clampScore (jgetD fields "jobRelevancyScore" (Json.num 50)) with
    | .error e => .error e
    | .ok score =>
      match sliceField (jgetD fields "skillMatches" (Json.arr [])) 10 with
      | .error e => .error e
      | .ok sm =>
        match sliceField (jgetD fields "skillGaps" (Json.arr [])) 10 with
        | .error e => .error e
        | .ok sg =>
          match sliceField (jgetD fields "strengths" (Json.arr [])) 5 with
          | .error e => .error e
          | .ok st =>
            match sliceField (jgetD fields "recommendations" (Json.arr [])) 3 with
            | .error e => .error e
            | .ok rc =>
              .ok { job_relevancy_score := score
                  , job_match_summary := jgetD fields "jobMatchSummary" (Json.str "No match summary available")
                  , skill_matches := sm
                  , skill_gaps := sg
                  , strengths := st
                  , recommendations := rc }
  | _ => .error (.attributeError ("object has no attribute get".toList))

/-- `_parse_gemini_response`: clean the reply, `json.loads` it, project onto
the `ResumeAnalysis` record. -/
def parseGeminiResponse (t : List Char) : Except PyError ResumeAnalysis :=
  match parseJson (clean t) with
  | .error m => .error (.jsonDecode m)
  | .ok j => projectResume j

/-- `_parse_job_match_response`: clean the reply, `json.loads` it, project
onto the `JobMatchAnalysis` record. -/
def parseJobMatchResponse (t : List Char) : Except PyError JobMatchAnalysis :=
  match parseJson (clean t) with
  | .error m => .error (.jsonDecode m)
  | .ok j => projectJobMatch j

/-! ## File-extension dispatch (`analyze_resume_from_file`, lines 153-190, and
`analyze_resume_file_for_job`, lines 328-365)

`os.path.splitext(file_path)[1].lower()` selects between the inline-text path
(`.txt`: read, decode UTF-8, delegate to the text entry point once — no
upload) and the file-attachment path (read bytes, `genai.upload_file` with a
MIME type from a fixed table, defaulting to `application/pdf`). -/

/-- Does the remainder of the basename left of the candidate dot (scanned
right-to-left) contain a non-dot character before the directory separator?
`os.path.splitext` yields an extension only in that case, so that names
consisting of leading dots (`.bashrc`, `.txt`) have no extension. -/
def hasStemChar : List Char → Bool
  | [] => false
  | c :: rest =>
    if c = '/' then false
    else if c = '.' then hasStemChar rest
    else true

/-- Right-to-left scan for the extension: `acc` accumulates the characters
already passed (in source order).  Stops at a separator (no extension) or at
the last dot (extension `'.' :: acc` when a stem character precedes it). -/
def extScan : List Char → List Char → List Char
  | _, [] => []
  | acc, c :: rest =>
    if c = '/' then []
    else if c = '.' then (if hasStemChar rest then '.' :: acc else [])
    else extScan (c :: acc) rest

/-- `os.path.splitext(p)[1]` for POSIX paths. -/
def splitextExt (p : List Char) : List Char := extScan [] p.reverse

/-- `os.path.splitext(file_path)[1].lower()` (ASCII lowering). -/
def lowerExt (p : List Char) : List Char := (splitextExt p).map Char.toLower

/-- The `mime_types` table (lines 169-173 / 345-349). -/
def mime_types : List (List Char × String) :=
  [ (".pdf".toList, "application/pdf")
  , (".doc".toList, "application/msword")
  , (".docx".toList, "application/vnd.openxmlformats-officedocument.wordprocessingml.document") ]

/-- `mime_types.get(ext, 'application/pdf')`. -/
def mimeLookup (ext : List Char) : String :=
  (mime_types.lookup ext).getD "application/pdf"

/-- What a file-based entry operation does with its path: either read the file
as UTF-8 text and delegate to the inline-text entry point exactly once (no
upload, `.txt` branch), or read the raw bytes and upload them with the given
MIME type before generation (no UTF-8 decode). -/
inductive ResumeFilePlan where
  | inlineText : ResumeFilePlan
  | upload : String → ResumeFilePlan
deriving DecidableEq

/-- Dispatch performed by `analyze_resume_from_file` (lines 156-181). -/
def analyzeResumeFromFilePlan (p : List Char) : ResumeFilePlan :=
  if lowerExt p = ".txt".toList then .inlineText
  else .upload (mimeLookup (lowerExt p))

/-- Dispatch performed by `analyze_resume_file_for_job` (lines 331-360);
the source duplicates the logic of `analyze_resume_from_file` verbatim. -/
def analyzeResumeFileForJobPlan (p : List Char) : ResumeFilePlan :=
  if lowerExt p = ".txt".toList then .inlineText
  else .upload (mimeLookup (lowerExt p))

/-! ## Entry operations and their error wrapping

Every entry operation runs under `try ... except json.JSONDecodeError as e:
raise Exception(f"Failed to parse AI response: {str(e)}") except Exception
as e: raise Exception(f"<operation tag>: {str(e)}")`.  The effectful
collaborators — `_configure_genai()`, the file reads, `genai.upload_file`,
and `model.generate_content(...).text` — are passed in as `Except`-valued
oracles; `.error` is the exception they may raise, with its `str(e)`. -/

/-- Message of the wrapped exception raised by a generic `except` clause:
`f"<tag>: {str(e)}"`. -/
def failMsg (tag : List Char) (e : List Char) : List Char := tag ++ ':' :: ' ' :: e

/-- Operation tag of `analyze_resume` (line 135). -/
def resumeTag : List Char := "Failed to analyze resume".toList

/-- Operation tag of `analyze_resume_from_file` (line 195). -/
def resumeFileTag : List Char := "Failed to analyze resume file".toList

/-- Operation tag of `analyze_resume_for_job` (line 304). -/
def forJobTag : List Char := "Failed to analyze resume for job".toList

/-- Operation tag of `analyze_resume_file_for_job` (line 370). -/
def fileForJobTag : List Char := "Failed to analyze resume file for job".toList

/-- Tag of the dedicated `json.JSONDecodeError` clause (lines 133, 193, 302, 368). -/
def parseFailTag : List Char := "Failed to parse AI response".toList

/-- Dispatch of a parse-pipeline outcome through the two `except` clauses of a
resume-producing entry operation. -/
def wrapResumeOutcome (tag : List Char) (x : Except PyError ResumeAnalysis) :
    Except (List Char) ResumeAnalysis :=
  match x with
  | .ok r => .ok r
  | .error (.jsonDecode m) => .error (failMsg parseFailTag m)
  | .error e => .error (failMsg tag e.msg)

/-- Dispatch of a parse-pipeline outcome through the two `except` clauses of a
job-match-producing entry operation. -/
def wrapJobOutcome (tag : List Char) (x : Except PyError JobMatchAnalysis) :
    Except (List Char) JobMatchAnalysis :=
  match x with
  | .ok r => .ok r
  | .error (.jsonDecode m) => .error (failMsg parseFailTag m)
  | .error e => .error (failMsg tag e.msg)

/-- `analyze_resume(resume_text)` (lines 111-135).  `cfg` is
`_configure_genai()`; `resp` is `model.generate_content(...)`, returning
`response.text` (`none` models a `None` text, replaced by `''`). -/
def analyzeResume (cfg : Except (List Char) Unit)
    (resp : Except (List Char) (Option (List Char))) :
    Except (List Char) ResumeAnalysis :=
  match cfg with
  | .error e => .error (failMsg resumeTag e)
  | .ok _ =>
    match resp with
    | .error e => .error (failMsg resumeTag e)
    | .ok t => wrapResumeOutcome resumeTag (parseGeminiResponse (t.getD []))

/-- `analyze_resume_for_job(...)` (lines 265-304); the prompt interpolation is
pure and cannot fail, so only the AI call and the parse remain. -/
def analyzeResumeForJob (cfg : Except (List Char) Unit)
    (resp : Except (List Char) (Option (List Char))) :
    Except (List Char) JobMatchAnalysis :=
  match cfg with
  | .error e => .error (failMsg forJobTag e)
  | .ok _ =>
    match resp with
    | .error e => .error (failMsg forJobTag e)
    | .ok t => wrapJobOutcome forJobTag (parseJobMatchResponse (t.getD []))

/-- `analyze_resume_from_file(file_path)` (lines 138-195).  `readTxt` is the
UTF-8 text read of the `.txt` branch, `readBin` the binary read, `upload` the
`genai.upload_file` call.  The `.txt` branch delegates to `analyze_resume`,
whose own wrapped exception is re-wrapped by this operation's generic
`except` clause. -/
def analyzeResumeFromFile (p : List Char) (cfg : Except (List Char) Unit)
    (readTxt : Except (List Char) (List Char))
    (readBin : Except (List Char) Unit)
    (upload : Except (List Char) Unit)
    (resp : Except (List Char) (Option (List Char))) :
    Except (List Char) ResumeAnalysis :=
  match cfg with
  | .error e => .error (failMsg resumeFileTag e)
  | .ok _ =>
    if lowerExt p = ".txt".toList then
      match readTxt with
      | .error e => .error (failMsg resumeFileTag e)
      | .ok _ =>
        match analyzeResume cfg resp with
        | .error e => .error (failMsg resumeFileTag e)
        | .ok r => .ok r
    else
      match readBin with
      | .error e => .error (failMsg resumeFileTag e)
      | .ok _ =>
        match upload with
        | .error e => .error (failMsg resumeFileTag e)
        | .ok _ =>
          match resp with
          | .error e => .error (failMsg resumeFileTag e)
          | .ok t => wrapResumeOutcome resumeFileTag (parseGeminiResponse (t.getD []))

/-- `analyze_resume_file_for_job(...)` (lines 307-370), same structure with
the job-match prompt and record. -/
def analyzeResumeFileForJob (p : List Char) (cfg : Except (List Char) Unit)
    (readTxt : Except (List Char) (List Char))
    (readBin : Except (List Char) Unit)
    (upload : Except (List Char) Unit)
    (resp : Except (List Char) (Option (List Char))) :
    Except (List Char) JobMatchAnalysis :=
  match cfg with
  | .error e => .error (failMsg fileForJobTag e)
  | .ok _ =>
    if lowerExt p = ".txt".toList then
      match readTxt with
      | .error e => .error (failMsg fileForJobTag e)
      | .ok _ =>
        match analyzeResumeForJob cfg resp with
        | .error e => .error (failMsg fileForJobTag e)
        | .ok r => .ok r
    else
      match readBin with
      | .error e => .error (failMsg fileForJobTag e)
      | .ok _ =>
        match upload with
        | .error e => .error (failMsg fileForJobTag e)
        | .ok _ =>
          match resp with
          | .error e => .error (failMsg fileForJobTag e)
          | .ok t => wrapJobOutcome fileForJobTag (parseJobMatchResponse (t.getD []))

/-- Is an outcome an error? -/
def isErr {ε α : Type} (x : Except ε α) : Bool :=
  match x with
  | .error _ => true
  | .ok _ => false

/-- The operation tags a failure message may be prefixed with. -/
def opFailureTags : List (List Char) :=
  [resumeTag, forJobTag, resumeFileTag, fileForJobTag, parseFailTag]

/-- Does a failure message name the operation that failed, as one of the
known tag strings in prefix position? -/
def namesFailedOp (m : List Char) : Bool :=
  opFailureTags.any (fun t => t.isPrefixOf m)

/-! ## Inversion of the projections -/

/-- A successful resume projection determines every field of the record. -/
theorem projectResume_ok (fields : List (String × Json)) (r : ResumeAnalysis)
    (h : projectResume (Json.obj fields) = .ok r) :
    clampScore (jgetD fields "priorityScore" (Json.num 50)) = .ok r.priority_score ∧
    sliceField (jgetD fields "keySkills" (Json.arr [])) 10 = .ok r.key_skills ∧
    sliceField (jgetD fields "highlights" (Json.arr [])) 5 = .ok r.highlights ∧
    sliceField (jgetD fields "concerns" (Json.arr [])) 3 = .ok r.concerns ∧
    r.name = jgetD fields "name" (Json.str "Unknown") ∧
    r.email = jgetD fields "email" (Json.str "unknown@example.com") ∧
    r.phone = jgetD fields "phone" Json.null ∧
    r.summary = jgetD fields "summary" (Json.str "No summary available") ∧
    r.experience = jgetD fields "experience" (Json.str "Not specified") ∧
    r.education = jgetD fields "education" (Json.str "Not specified") := by
  simp only [projectResume] at h
  cases hc : clampScore (jgetD fields "priorityScore" (Json.num 50)) with
  | error e => rw [hc] at h; simp at h
  | ok score =>
    rw [hc] at h
    cases h1 : sliceField (jgetD fields "keySkills" (Json.arr [])) 10 with
    | error e => rw [h1] at h; simp at h
    | ok ks =>
      rw [h1] at h
      cases h2 : sliceField (jgetD fields "highlights" (Json.arr [])) 5 with
      | error e => rw [h2] at h; simp at h
      | ok hl =>
        rw [h2] at h
        cases h3 : sliceField (jgetD fields "concerns" (Json.arr [])) 3 with
        | error e => rw [h3] at h; simp at h
        | ok cs =>
          rw [h3] at h
          simp only [Except.ok.injEq] at h
          subst h
          refine ⟨?_, ?_, ?_, ?_, ?_, ?_, ?_, ?_, ?_, ?_⟩ <;> simp [hc, h1, h2, h3]

/-- A successful job-match projection determines every field of the record. -/
theorem projectJobMatch_ok (fields : List (String × Json)) (q : JobMatchAnalysis)
    (h : projectJobMatch (Json.obj fields) = .ok q) :
    clampScore (jgetD fields "jobRelevancyScore" (Json.num 50)) = .ok q.job_relevancy_score ∧
    sliceField (jgetD fields "skillMatches" (Json.arr [])) 10 = .ok q.skill_matches ∧
    sliceField (jgetD fields "skillGaps" (Json.arr [])) 10 = .ok q.skill_gaps ∧
    sliceField (jgetD fields "strengths" (Json.arr [])) 5 = .ok q.strengths ∧
    sliceField (jgetD fields "recommendations" (Json.arr [])) 3 = .ok q.recommendations ∧
    q.job_match_summary = jgetD fields "jobMatchSummary" (Json.str "No match summary available") := by
  simp only [projectJobMatch] at h
  cases hc : clampScore (jgetD fields "jobRelevancyScore" (Json.num 50)) with
  | error e => rw [hc] at h; simp at h
  | ok score =>
    rw [hc] at h
    cases h1 : sliceField (jgetD fields "skillMatches" (Json.arr [])) 10 with
    | error e => rw [h1] at h; simp at h
    | ok sm =>
      rw [h1] at h
      cases h2 : sliceField (jgetD fields "skillGaps" (Json.arr [])) 10 with
      | error e => rw [h2] at h; simp at h
      | ok sg =>
        rw [h2] at h
        cases h3 : sliceField (jgetD fields "strengths" (Json.arr [])) 5 with
        | error e => rw [h3] at h; simp at h
        | ok st =>
          rw [h3] at h
          cases h4 : sliceField (jgetD fields "recommendations" (Json.arr [])) 3 with
          | error e => rw [h4] at h; simp at h
          | ok rc =>
            rw [h4] at h
            simp only [Except.ok.injEq] at h
            subst h
            refine ⟨?_, ?_, ?_, ?_, ?_, ?_⟩ <;> simp [hc, h1, h2, h3, h4]

/-- Whatever the clamp accepts lands in `[0, 100]`. -/
theorem clampScore_ok_bounds {v : Json} {s : Int} (h : clampScore v = .ok s) :
    0 ≤ s ∧ s ≤ 100 := by
  cases v with
  | num n => simp [clampScore] at h; omega
  | bool b => cases b <;> simp [clampScore] at h <;> omega
  | null => simp [clampScore] at h
  | str s => simp [clampScore] at h
  | arr xs => simp [clampScore] at h
  | obj fs => simp [clampScore] at h

/-- The clamp of an integer score. -/
theorem clampScore_num (n : Int) : clampScore (Json.num n) = .ok (min 100 (max 0 n)) := rfl

/-- What the accepted score is, as a function of the fetched field. -/
theorem score_of_ok {fields : List (String × Json)} {k : String} {s : Int}
    (hc : clampScore (jgetD fields k (Json.num 50)) = .ok s) :
    (∀ n : Int, jget fields k = some (Json.num n) → s = min 100 (max 0 n)) ∧
    (jget fields k = none → s = 50) := by
  constructor
  · intro n hj
    rw [jgetD, hj, Option.getD_some, clampScore_num] at hc
    simpa using hc.symm
  · intro hj
    rw [jgetD, hj, Option.getD_none, clampScore_num] at hc
    simpa using hc.symm

/-- Slicing a fetched list value truncates it to its first `n` entries
(an empty list is falsy in Python, but `[] or []` slices to `[]` as well). -/
theorem sliceField_arr (xs : List Json) (n : Nat) :
    sliceField (Json.arr xs) n = .ok (Json.arr (xs.take n)) := by
  cases xs <;> simp [sliceField, jsonTruthy]

/-- Slicing a fetched `null` yields the empty list (`None or []`). -/
theorem sliceField_null (n : Nat) : sliceField Json.null n = .ok (Json.arr []) := by
  simp [sliceField, jsonTruthy]

/-- Sample record: the projection of `{"priorityScore": 150}`. -/
def resumeOf150 : ResumeAnalysis :=
  { name := Json.str "Unknown", email := Json.str "unknown@example.com", phone := Json.null
  , priority_score := 100, summary := Json.str "No summary available"
  , key_skills := Json.arr [], experience := Json.str "Not specified"
  , education := Json.str "Not specified", highlights := Json.arr [], concerns := Json.arr [] }

/-- Sample record: the projection of `{"priorityScore": -5}`. -/
def resumeOfNeg : ResumeAnalysis := { resumeOf150 with priority_score := 0 }

/-- Sample record: the projection of an empty JSON object. -/
def resumeOfEmpty : ResumeAnalysis := { resumeOf150 with priority_score := 50 }

/-- Sample record: the projection of `{"jobRelevancyScore": 150}`. -/
def jobOf150 : JobMatchAnalysis :=
  { job_relevancy_score := 100, job_match_summary := Json.str "No match summary available"
  , skill_matches := Json.arr [], skill_gaps := Json.arr []
  , strengths := Json.arr [], recommendations := Json.arr [] }

/-- Claim C1: in every record the two projections accept, the normalized score
lies in `[0, 100]`; a supplied 150 normalizes to 100, a supplied -5 to 0, an
in-range score is returned unchanged, and a missing score key yields 50. -/
theorem normalized_scores_lie_in_range :
    (∀ (fields : List (String × Json)) (r : ResumeAnalysis),
      projectResume (Json.obj fields) = .ok r →
        (0 ≤ r.priority_score ∧ r.priority_score ≤ 100) ∧
        (jget fields "priorityScore" = some (Json.num 150) → r.priority_score = 100) ∧
        (jget fields "priorityScore" = some (Json.num (-5)) → r.priority_score = 0) ∧
        (∀ n : Int, jget fields "priorityScore" = some (Json.num n) →
          0 ≤ n → n ≤ 100 → r.priority_score = n) ∧
        (jget fields "priorityScore" = none → r.priority_score = 50)) ∧
    (∀ (fields : List (String × Json)) (q : JobMatchAnalysis),
      projectJobMatch (Json.obj fields) = .ok q →
        (0 ≤ q.job_relevancy_score ∧ q.job_relevancy_score ≤ 100) ∧
        (jget fields "jobRelevancyScore" = some (Json.num 150) → q.job_relevancy_score = 100) ∧
        (jget fields "jobRelevancyScore" = some (Json.num (-5)) → q.job_relevancy_score = 0) ∧
        (∀ n : Int, jget fields "jobRelevancyScore" = some (Json.num n) →
          0 ≤ n → n ≤ 100 → q.job_relevancy_score = n) ∧
        (jget fields "jobRelevancyScore" = none → q.job_relevancy_score = 50)) := by
  constructor
  · intro fields r h
    have hc := (projectResume_ok fields r h).1
    have hs := score_of_ok hc
    refine ⟨clampScore_ok_bounds hc, ?_, ?_, ?_, ?_⟩
    · intro hj; have := hs.1 150 hj; omega
    · intro hj; have := hs.1 (-5) hj; omega
    · intro n hj h0 h1; have := hs.1 n hj; omega
    · intro hj; exact hs.2 hj
  · intro fields q h
    have hc := (projectJobMatch_ok fields q h).1
    have hs := score_of_ok hc
    refine ⟨clampScore_ok_bounds hc, ?_, ?_, ?_, ?_⟩
    · intro hj; have := hs.1 150 hj; omega
    · intro hj; have := hs.1 (-5) hj; omega
    · intro n hj h0 h1; have := hs.1 n hj; omega
    · intro hj; exact hs.2 hj

/-- Witness for C1 at the concrete replies `{"priorityScore": 150}` and
`{"jobRelevancyScore": 150}`. -/
theorem normalized_scores_lie_in_range_witness :
    resumeOf150.priority_score = 100 ∧ jobOf150.job_relevancy_score = 100 :=
  ⟨(normalized_scores_lie_in_range.1 [("priorityScore", Json.num 150)] resumeOf150 rfl).2.1 rfl,
   (normalized_scores_lie_in_range.2 [("jobRelevancyScore", Json.num 150)] jobOf150 rfl).2.1 rfl⟩

/-- The normalized score of an accepted resume projection, `none` on failure. -/
def scoreOfResume (x : Except PyError ResumeAnalysis) : Option Int :=
  match x with
  | .ok r => some r.priority_score
  | .error _ => none

/-- The normalized score of an accepted job-match projection. -/
def scoreOfJob (x : Except PyError JobMatchAnalysis) : Option Int :=
  match x with
  | .ok q => some q.job_relevancy_score
  | .error _ => none

/-- Counterexample to C6: the reply `{"priorityScore": 150}` — score present
and out of range — normalizes to 100, not to the claimed default 50; likewise
`{"jobRelevancyScore": 150}`. -/
theorem out_of_range_score_does_not_default_to_50 :
    scoreOfResume (projectResume (Json.obj [("priorityScore", Json.num 150)])) = some 100 ∧
    scoreOfJob (projectJobMatch (Json.obj [("jobRelevancyScore", Json.num 150)])) = some 100 ∧
    (some (100 : Int) ≠ some (50 : Int)) :=
  ⟨rfl, rfl, by decide⟩

/-- Claim C6 as amended: a present but out-of-range score is clamped to the
nearest bound of `[0, 100]` (above 100 → 100, below 0 → 0); only a missing
score key defaults to 50. -/
theorem out_of_range_score_clamped_to_nearest_bound :
    (∀ (fields : List (String × Json)) (r : ResumeAnalysis) (n : Int),
      projectResume (Json.obj fields) = .ok r →
      jget fields "priorityScore" = some (Json.num n) →
        (100 < n → r.priority_score = 100) ∧ (n < 0 → r.priority_score = 0)) ∧
    (∀ (fields : List (String × Json)) (q : JobMatchAnalysis) (n : Int),
      projectJobMatch (Json.obj fields) = .ok q →
      jget fields "jobRelevancyScore" = some (Json.num n) →
        (100 < n → q.job_relevancy_score = 100) ∧ (n < 0 → q.job_relevancy_score = 0)) := by
  constructor
  · intro fields r n h hj
    have hs := (score_of_ok (projectResume_ok fields r h).1).1 n hj
    constructor <;> intro <;> omega
  · intro fields q n h hj
    have hs := (score_of_ok (projectJobMatch_ok fields q h).1).1 n hj
    constructor <;> intro <;> omega

/-- Witness for amended C6: 150 clamps to 100, -5 clamps to 0. -/
theorem out_of_range_score_clamped_to_nearest_bound_witness :
    resumeOf150.priority_score = 100 ∧ resumeOfNeg.priority_score = 0 :=
  ⟨(out_of_range_score_clamped_to_nearest_bound.1
      [("priorityScore", Json.num 150)] resumeOf150 150 rfl rfl).1 (by decide),
   (out_of_range_score_clamped_to_nearest_bound.1
      [("priorityScore", Json.num (-5))] resumeOfNeg (-5) rfl rfl).2 (by decide)⟩

/-- Claim C7: a string field absent from the reply gets its fixed sentinel in
the projected record, which is always fully populated. -/
theorem missing_string_fields_get_sentinels :
    ∀ (fields : List (String × Json)) (r : ResumeAnalysis),
      projectResume (Json.obj fields) = .ok r →
        (jget fields "name" = none → r.name = Json.str "Unknown") ∧
        (jget fields "email" = none → r.email = Json.str "unknown@example.com") ∧
        (jget fields "summary" = none → r.summary = Json.str "No summary available") ∧
        (jget fields "experience" = none → r.experience = Json.str "Not specified") ∧
        (jget fields "education" = none → r.education = Json.str "Not specified") := by
  intro fields r h
  obtain ⟨-, -, -, -, hn, he, -, hs, hx, hd⟩ := projectResume_ok fields r h
  refine ⟨?_, ?_, ?_, ?_, ?_⟩ <;> intro hj
  · rw [hn, jgetD, hj, Option.getD_none]
  · rw [he, jgetD, hj, Option.getD_none]
  · rw [hs, jgetD, hj, Option.getD_none]
  · rw [hx, jgetD, hj, Option.getD_none]
  · rw [hd, jgetD, hj, Option.getD_none]

/-- Witness for C7 at the empty JSON object reply. -/
theorem missing_string_fields_get_sentinels_witness :
    resumeOfEmpty.name = Json.str "Unknown" ∧
    resumeOfEmpty.email = Json.str "unknown@example.com" ∧
    resumeOfEmpty.summary = Json.str "No summary available" ∧
    resumeOfEmpty.experience = Json.str "Not specified" ∧
    resumeOfEmpty.education = Json.str "Not specified" := by
  have h := missing_string_fields_get_sentinels [] resumeOfEmpty rfl
  exact ⟨h.1 rfl, h.2.1 rfl, h.2.2.1 rfl, h.2.2.2.1 rfl, h.2.2.2.2 rfl⟩

/-- What an accepted slice is, as a function of the fetched field: a supplied
list is truncated to its first `n` entries, while a supplied `null` or an
absent key becomes the empty list. -/
theorem slice_of_ok {fields : List (String × Json)} {k : String} {n : Nat} {w : Json}
    (hs : sliceField (jgetD fields k (Json.arr [])) n = .ok w) :
    (∀ xs, jget fields k = some (Json.arr xs) → w = Json.arr (xs.take n)) ∧
    ((jget fields k = some Json.null ∨ jget fields k = none) → w = Json.arr []) := by
  constructor
  · intro xs hj
    rw [jgetD, hj, Option.getD_some, sliceField_arr] at hs
    simpa using hs.symm
  · intro hj
    rcases hj with hj | hj
    · rw [jgetD, hj, Option.getD_some, sliceField_null] at hs
      simpa using hs.symm
    · rw [jgetD, hj, Option.getD_none, sliceField_arr] at hs
      simpa using hs.symm

/-- Sample record: the projection of a reply carrying eleven key skills. -/
def elevenSkills : List Json :=
  (List.range 11).map (fun i => Json.str (toString i))

/-- Sample record: the projection of `{"keySkills": <elevenSkills>}`. -/
def resumeOfSkills : ResumeAnalysis :=
  { resumeOfEmpty with key_skills := Json.arr (elevenSkills.take 10) }

/-- Sample record: the projection of `{"skillGaps": null}`. -/
def jobOfNullGaps : JobMatchAnalysis := { jobOf150 with job_relevancy_score := 50 }

/-- Claim C3: every sequence field of an accepted record is the prefix of the
supplied list truncated to its stated maximum (keySkills, skillMatches and
skillGaps to 10, highlights and strengths to 5, concerns and recommendations
to 3), order preserved; a null or absent list value becomes `[]`, never null. -/
theorem sequence_fields_truncated_keeping_order :
    (∀ (fields : List (String × Json)) (r : ResumeAnalysis),
      projectResume (Json.obj fields) = .ok r →
        (∀ xs, jget fields "keySkills" = some (Json.arr xs) →
          r.key_skills = Json.arr (xs.take 10)) ∧
        ((jget fields "keySkills" = some Json.null ∨ jget fields "keySkills" = none) →
          r.key_skills = Json.arr []) ∧
        (∀ xs, jget fields "highlights" = some (Json.arr xs) →
          r.highlights = Json.arr (xs.take 5)) ∧
        ((jget fields "highlights" = some Json.null ∨ jget fields "highlights" = none) →
          r.highlights = Json.arr []) ∧
        (∀ xs, jget fields "concerns" = some (Json.arr xs) →
          r.concerns = Json.arr (xs.take 3)) ∧
        ((jget fields "concerns" = some Json.null ∨ jget fields "concerns" = none) →
          r.concerns = Json.arr [])) ∧
    (∀ (fields : List (String × Json)) (q : JobMatchAnalysis),
      projectJobMatch (Json.obj fields) = .ok q →
        (∀ xs, jget fields "skillMatches" = some (Json.arr xs) →
          q.skill_matches = Json.arr (xs.take 10)) ∧
        ((jget fields "skillMatches" = some Json.null ∨ jget fields "skillMatches" = none) →
          q.skill_matches = Json.arr []) ∧
        (∀ xs, jget fields "skillGaps" = some (Json.arr xs) →
          q.skill_gaps = Json.arr (xs.take 10)) ∧
        ((jget fields "skillGaps" = some Json.null ∨ jget fields "skillGaps" = none) →
          q.skill_gaps = Json.arr []) ∧
        (∀ xs, jget fields "strengths" = some (Json.arr xs) →
          q.strengths = Json.arr (xs.take 5)) ∧
        ((jget fields "strengths" = some Json.null ∨ jget fields "strengths" = none) →
          q.strengths = Json.arr []) ∧
        (∀ xs, jget fields "recommendations" = some (Json.arr xs) →
          q.recommendations = Json.arr (xs.take 3)) ∧
        ((jget fields "recommendations" = some Json.null ∨ jget fields "recommendations" = none) →
          q.recommendations = Json.arr [])) := by
  constructor
  · intro fields r h
    obtain ⟨-, h1, h2, h3, -⟩ := projectResume_ok fields r h
    exact ⟨(slice_of_ok h1).1, (slice_of_ok h1).2, (slice_of_ok h2).1, (slice_of_ok h2).2,
           (slice_of_ok h3).1, (slice_of_ok h3).2⟩
  · intro fields q h
    obtain ⟨-, h1, h2, h3, h4, -⟩ := projectJobMatch_ok fields q h
    exact ⟨(slice_of_ok h1).1, (slice_of_ok h1).2, (slice_of_ok h2).1, (slice_of_ok h2).2,
           (slice_of_ok h3).1, (slice_of_ok h3).2, (slice_of_ok h4).1, (slice_of_ok h4).2⟩

/-- Witness for C3: eleven key skills are truncated to the first ten, and a
`null` skillGaps becomes the empty list. -/
theorem sequence_fields_truncated_keeping_order_witness :
    resumeOfSkills.key_skills = Json.arr (elevenSkills.take 10) ∧
    jobOfNullGaps.skill_gaps = Json.arr [] :=
  ⟨(sequence_fields_truncated_keeping_order.1
      [("keySkills", Json.arr elevenSkills)] resumeOfSkills rfl).1 elevenSkills rfl,
   (sequence_fields_truncated_keeping_order.2
      [("skillGaps", Json.null)] jobOfNullGaps rfl).2.2.2.1 (Or.inl rfl)⟩

/-- Can the fetched score value be clamped without a `TypeError`?
Ints and bools order against ints; nothing else does. -/
def scoreOk : Json → Bool
  | .num _ => true
  | .bool _ => true
  | _ => false

/-- Can the fetched sequence value go through `(v or [])[:n]` without a
`TypeError`?  Lists and strings slice; falsy values are replaced by `[]`
before slicing; every other truthy value fails. -/
def sliceOk : Json → Bool
  | .arr _ => true
  | .str _ => true
  | .null => true
  | .num n => n = 0
  | .bool b => !b
  | .obj fs => fs.isEmpty

/-- The clamp succeeds on exactly the values `scoreOk` accepts. -/
theorem clampScore_ok_of_scoreOk {v : Json} (h : scoreOk v = true) :
    ∃ s, clampScore v = .ok s := by
  cases v <;> simp [scoreOk] at h <;> exact ⟨_, rfl⟩

/-- The slice succeeds on exactly the values `sliceOk` accepts. -/
theorem sliceField_ok_of_sliceOk {v : Json} {n : Nat} (h : sliceOk v = true) :
    ∃ w, sliceField v n = .ok w := by
  cases v with
  | arr xs => exact ⟨Json.arr (xs.take n), sliceField_arr xs n⟩
  | str s =>
    rcases eq_or_ne s "" with hs | hs
    · exact ⟨Json.arr [], by simp [sliceField, jsonTruthy, hs]⟩
    · exact ⟨Json.str (String.mk (s.toList.take n)), by simp [sliceField, jsonTruthy, hs]⟩
  | null => exact ⟨Json.arr [], sliceField_null n⟩
  | num m =>
    simp [sliceOk] at h
    subst h
    exact ⟨Json.arr [], by simp [sliceField, jsonTruthy]⟩
  | bool b =>
    simp [sliceOk] at h
    subst h
    exact ⟨Json.arr [], by simp [sliceField, jsonTruthy]⟩
  | obj fs =>
    simp [sliceOk, List.isEmpty_iff] at h
    subst h
    exact ⟨Json.arr [], by simp [sliceField, jsonTruthy]⟩

/-- Counterexample to C8: the projection step is not total on everything the
JSON parser can produce.  A parsed array makes `analysis.get` raise
`AttributeError`; a parsed number likewise; a string-valued score raises
`TypeError` in `max`; a number-valued list field raises `TypeError` when
sliced. -/
theorem projection_fails_on_non_object_replies :
    isErr (projectResume (Json.arr [])) = true ∧
    isErr (projectResume (Json.obj [("priorityScore", Json.str "high")])) = true ∧
    isErr (projectJobMatch (Json.num 7)) = true ∧
    isErr (projectJobMatch (Json.obj [("skillMatches", Json.num 3)])) = true :=
  ⟨rfl, rfl, rfl, rfl⟩

/-- Claim C8 as amended: for every parsed JSON object whose score field (when
present) is an int or bool and whose sequence fields (when present) are
lists, strings or falsy, the projection never fails — every field has a
default and in-object defects are repaired, not raised.  (On a non-object
parse result, or a field of an unusable type, it does fail.) -/
theorem projection_total_on_well_typed_objects :
    (∀ fields : List (String × Json),
      scoreOk (jgetD fields "priorityScore" (Json.num 50)) = true →
      sliceOk (jgetD fields "keySkills" (Json.arr [])) = true →
      sliceOk (jgetD fields "highlights" (Json.arr [])) = true →
      sliceOk (jgetD fields "concerns" (Json.arr [])) = true →
      isErr (projectResume (Json.obj fields)) = false) ∧
    (∀ fields : List (String × Json),
      scoreOk (jgetD fields "jobRelevancyScore" (Json.num 50)) = true →
      sliceOk (jgetD fields "skillMatches" (Json.arr [])) = true →
      sliceOk (jgetD fields "skillGaps" (Json.arr [])) = true →
      sliceOk (jgetD fields "strengths" (Json.arr [])) = true →
      sliceOk (jgetD fields "recommendations" (Json.arr [])) = true →
      isErr (projectJobMatch (Json.obj fields)) = false) := by
  constructor
  · intro fields h0 h1 h2 h3
    obtain ⟨s, hs⟩ := clampScore_ok_of_scoreOk h0
    obtain ⟨w1, hw1⟩ := sliceField_ok_of_sliceOk (n := 10) h1
    obtain ⟨w2, hw2⟩ := sliceField_ok_of_sliceOk (n := 5) h2
    obtain ⟨w3, hw3⟩ := sliceField_ok_of_sliceOk (n := 3) h3
    simp [projectResume, hs, hw1, hw2, hw3, isErr]
  · intro fields h0 h1 h2 h3 h4
    obtain ⟨s, hs⟩ := clampScore_ok_of_scoreOk h0
    obtain ⟨w1, hw1⟩ := sliceField_ok_of_sliceOk (n := 10) h1
    obtain ⟨w2, hw2⟩ := sliceField_ok_of_sliceOk (n := 10) h2
    obtain ⟨w3, hw3⟩ := sliceField_ok_of_sliceOk (n := 5) h3
    obtain ⟨w4, hw4⟩ := sliceField_ok_of_sliceOk (n := 3) h4
    simp [projectJobMatch, hs, hw1, hw2, hw3, hw4, isErr]

/-- Witness for amended C8 at the empty object and at an object with an
in-range score and a short list. -/
theorem projection_total_on_well_typed_objects_witness :
    isErr (projectResume (Json.obj [])) = false ∧
    isErr (projectJobMatch (Json.obj [("jobRelevancyScore", Json.num 85),
      ("skillGaps", Json.arr [])])) = false :=
  ⟨projection_total_on_well_typed_objects.1 [] rfl rfl rfl rfl,
   projection_total_on_well_typed_objects.2 [("jobRelevancyScore", Json.num 85),
      ("skillGaps", Json.arr [])] rfl rfl rfl rfl rfl⟩

/-! ## Behaviour of `str.strip()` at the ends of a reply -/

/-- A left strip keeps a non-whitespace head. -/
theorem lstrip_cons_not_ws {c : Char} {l : List Char} (h : pyWs c = false) :
    lstrip (c :: l) = c :: l := by
  simp [lstrip, List.dropWhile_cons, h]

/-- A strip consumes a whitespace head. -/
theorem pyStrip_cons_ws {c : Char} {l : List Char} (h : pyWs c = true) :
    pyStrip (c :: l) = pyStrip l := by
  simp [pyStrip, lstrip, List.dropWhile_cons, h]

/-- A right strip consumes a whitespace last character. -/
theorem rstrip_append_ws {c : Char} {l : List Char} (h : pyWs c = true) :
    rstrip (l ++ [c]) = rstrip l := by
  simp [rstrip, List.reverse_append, List.dropWhile_cons, h]

/-- A right strip keeps a non-whitespace last character. -/
theorem rstrip_append_not_ws {c : Char} {l : List Char} (h : pyWs c = false) :
    rstrip (l ++ [c]) = l ++ [c] := by
  simp [rstrip, List.reverse_append, List.dropWhile_cons, h]

/-- A strip consumes a whitespace last character. -/
theorem pyStrip_append_ws {c : Char} (h : pyWs c = true) :
    ∀ l : List Char, pyStrip (l ++ [c]) = pyStrip l := by
  intro l
  induction l with
  | nil => simp [pyStrip, lstrip, rstrip, List.dropWhile_cons, h]
  | cons a l ih =>
    by_cases ha : pyWs a = true
    · rw [List.cons_append, pyStrip_cons_ws ha, ih, pyStrip_cons_ws ha]
    · simp only [Bool.not_eq_true] at ha
      rw [List.cons_append, pyStrip, lstrip_cons_not_ws ha, ← List.cons_append,
        rstrip_append_ws h, pyStrip, lstrip_cons_not_ws ha]

/-- A strip fixes a text whose two ends are non-whitespace. -/
theorem pyStrip_cons_append_not_ws {c d : Char} {l : List Char}
    (hc : pyWs c = false) (hd : pyWs d = false) :
    pyStrip (c :: (l ++ [d])) = c :: (l ++ [d]) := by
  rw [pyStrip, lstrip_cons_not_ws hc]
  have hshape : c :: (l ++ [d]) = (c :: l) ++ [d] := by simp
  rw [hshape, rstrip_append_not_ws hd]

/-- A list is a prefix of itself followed by anything. -/
theorem isPrefixOf_self_append (l r : List Char) : l.isPrefixOf (l ++ r) = true := by
  induction l with
  | nil => simp [List.isPrefixOf]
  | cons a l ih => simp [List.isPrefixOf, ih]

/-! ## The fenced forms of a reply -/

/-- A reply wrapped as `"```json\n" + b + "\n```"`. -/
def fenceJson (b : List Char) : List Char :=
  '`' :: '`' :: '`' :: 'j' :: 's' :: 'o' :: 'n' :: '\n' :: (b ++ ['\n', '`', '`', '`'])

/-- A reply wrapped as `"```\n" + b + "\n```"`. -/
def fencePlain (b : List Char) : List Char :=
  '`' :: '`' :: '`' :: '\n' :: (b ++ ['\n', '`', '`', '`'])

/-- A text of the form `'\n' + x + "\n```"` ends with the fence marker. -/
theorem endsWith_fence_of_trailing (x : List Char) :
    endsWith fenceMarker ('\n' :: (x ++ ['\n', '`', '`', '`'])) = true := by
  rw [endsWith, List.isSuffixOf]
  have h1 : ('\n' :: (x ++ ['\n', '`', '`', '`'])).reverse =
      fenceMarker ++ ('\n' :: (x.reverse ++ ['\n'])) := by
    simp [fenceMarker]
  rw [h1, show fenceMarker.reverse = fenceMarker from rfl]
  exact isPrefixOf_self_append fenceMarker _

/-- Dropping the final three characters of `'\n' + x + "\n```"`. -/
theorem take_drops_closing_fence (x : List Char) :
    ('\n' :: (x ++ ['\n', '`', '`', '`'])).take
      (('\n' :: (x ++ ['\n', '`', '`', '`'])).length - 3) = '\n' :: (x ++ ['\n']) := by
  have hlen : ('\n' :: (x ++ ['\n', '`', '`', '`'])).length - 3 = (x.length + 1) + 1 := by
    simp
  rw [hlen, List.take_succ_cons, List.take_append 1]
  rfl

/-- Cleaning a ```` ```json ````-fenced reply reduces to stripping the body. -/
theorem clean_fenceJson (b : List Char) : clean (fenceJson b) = pyStrip b := by
  have hfix : pyStrip (fenceJson b) = fenceJson b := by
    have hshape : fenceJson b =
        '`' :: (('`' :: '`' :: 'j' :: 's' :: 'o' :: 'n' :: '\n' :: (b ++ ['\n', '`', '`'])) ++ ['`']) := by
      simp [fenceJson]
    rw [hshape, pyStrip_cons_append_not_ws (by decide) (by decide)]
  have hjson : startsWith jsonMarker (fenceJson b) = true := rfl
  have hdrop : (fenceJson b).drop 7 = '\n' :: (b ++ ['\n', '`', '`', '`']) := rfl
  rw [clean, hfix, stripFences, hjson]
  simp only [if_true, hdrop, endsWith_fence_of_trailing, take_drops_closing_fence]
  rw [pyStrip_cons_ws (by decide), pyStrip_append_ws (by decide)]

/-- Cleaning a plainly fenced reply reduces to stripping the body. -/
theorem clean_fencePlain (b : List Char) : clean (fencePlain b) = pyStrip b := by
  have hfix : pyStrip (fencePlain b) = fencePlain b := by
    have hshape : fencePlain b =
        '`' :: (('`' :: '`' :: '\n' :: (b ++ ['\n', '`', '`'])) ++ ['`']) := by
      simp [fencePlain]
    rw [hshape, pyStrip_cons_append_not_ws (by decide) (by decide)]
  have hjson : startsWith jsonMarker (fencePlain b) = false := rfl
  have hfence : startsWith fenceMarker (fencePlain b) = true := rfl
  have hdrop : (fencePlain b).drop 3 = '\n' :: (b ++ ['\n', '`', '`', '`']) := rfl
  rw [clean, hfix, stripFences, hjson, hfence]
  simp only [if_true, if_false, Bool.false_eq_true, hdrop, endsWith_fence_of_trailing,
    take_drops_closing_fence]
  rw [pyStrip_cons_ws (by decide), pyStrip_append_ws (by decide)]

/-- A strip fixes a text with a non-whitespace head and a non-whitespace
last character, the ends given as decompositions. -/
theorem pyStrip_fix {c d : Char} {s : List Char} (hc : pyWs c = false)
    (hd : pyWs d = false) (h1 : ∃ t, s = c :: t) (h2 : ∃ u, s = u ++ [d]) :
    pyStrip s = s := by
  obtain ⟨t, rfl⟩ := h1
  obtain ⟨u, hu⟩ := h2
  rw [pyStrip, lstrip_cons_not_ws hc, hu, rstrip_append_not_ws hd]

/-- Cleaning fixes a reply whose stripped form is brace-delimited: no fence
marker fires on it. -/
theorem clean_of_braced (b : List Char) (h1 : (pyStrip b).head? = some '{')
    (h2 : (pyStrip b).getLast? = some '}') : clean b = pyStrip b := by
  cases hs : pyStrip b with
  | nil => rw [hs] at h1; simp at h1
  | cons a t =>
    rw [hs] at h1
    simp only [List.head?_cons, Option.some.injEq] at h1
    subst h1
    have hrev : (pyStrip b).reverse.head? = some '}' := by
      rw [List.head?_reverse]; exact h2
    cases hr : (pyStrip b).reverse with
    | nil => rw [hr] at hrev; simp at hrev
    | cons a' u =>
      rw [hr] at hrev
      simp only [List.head?_cons, Option.some.injEq] at hrev
      subst hrev
      have hback : pyStrip b = u.reverse ++ ['}'] := by
        have := congrArg List.reverse hr
        simpa using this
      have hjson : startsWith jsonMarker (pyStrip b) = false := by rw [hs]; rfl
      have hfence : startsWith fenceMarker (pyStrip b) = false := by rw [hs]; rfl
      have hclose : endsWith fenceMarker (pyStrip b) = false := by
        rw [endsWith, List.isSuffixOf, hr]; rfl
      have hsf : stripFences (pyStrip b) = pyStrip b := by
        rw [stripFences]
        simp [hjson, hfence, hclose]
      rw [clean, hsf, ← hs]
      exact pyStrip_fix (by decide) (by decide) ⟨t, hs⟩ ⟨u.reverse, hback⟩

/-- Claim C2: wrapping a JSON object body in a ```` ```json ```` fence or a
plain ```` ``` ```` fence changes nothing — the normalizer trims, strips the
7-character labelled marker (else the 3-character marker), strips the
trailing marker, trims again, and only then parses, so the fenced reply
yields exactly the record of the bare body.  The body is constrained only to
look like a JSON object: brace-delimited after trimming. -/
theorem fenced_reply_normalizes_like_bare_body (b : List Char)
    (h1 : (pyStrip b).head? = some '{') (h2 : (pyStrip b).getLast? = some '}') :
    fenceJson b = "```json\n".toList ++ b ++ "\n```".toList ∧
    fencePlain b = "```\n".toList ++ b ++ "\n```".toList ∧
    clean (fenceJson b) = clean b ∧
    clean (fencePlain b) = clean b ∧
    parseGeminiResponse (fenceJson b) = parseGeminiResponse b ∧
    parseGeminiResponse (fencePlain b) = parseGeminiResponse b ∧
    parseJobMatchResponse (fenceJson b) = parseJobMatchResponse b ∧
    parseJobMatchResponse (fencePlain b) = parseJobMatchResponse b := by
  have hj : clean (fenceJson b) = clean b := by
    rw [clean_fenceJson, clean_of_braced b h1 h2]
  have hp : clean (fencePlain b) = clean b := by
    rw [clean_fencePlain, clean_of_braced b h1 h2]
  refine ⟨by simp [fenceJson], by simp [fencePlain], hj, hp, ?_, ?_, ?_, ?_⟩
  · rw [parseGeminiResponse, parseGeminiResponse, hj]
  · rw [parseGeminiResponse, parseGeminiResponse, hp]
  · rw [parseJobMatchResponse, parseJobMatchResponse, hj]
  · rw [parseJobMatchResponse, parseJobMatchResponse, hp]

/-- Witness for C2 at the body `{"a":1}`. -/
theorem fenced_reply_normalizes_like_bare_body_witness :
    parseGeminiResponse (fenceJson ['{', '"', 'a', '"', ':', '1', '}']) =
      parseGeminiResponse ['{', '"', 'a', '"', ':', '1', '}'] :=
  (fenced_reply_normalizes_like_bare_body
    ['{', '"', 'a', '"', ':', '1', '}'] rfl rfl).2.2.2.2.1

/-- Claim C4: a reply that is not valid JSON after fence-stripping makes the
normalizer fail with a distinct parse error carrying the underlying message,
and never yields a record; the empty reply (and a `None` reply text, turned
into `''` by `response.text or ''`) is such a case. -/
theorem non_json_reply_raises_parse_failure :
    (∀ (t m : List Char), parseJson (clean t) = .error m →
      parseGeminiResponse t = .error (.jsonDecode m) ∧
      parseJobMatchResponse t = .error (.jsonDecode m) ∧
      analyzeResume (.ok ()) (.ok (some t)) = .error (failMsg parseFailTag m) ∧
      analyzeResumeForJob (.ok ()) (.ok (some t)) = .error (failMsg parseFailTag m)) ∧
    clean [] = [] ∧
    parseJson ([] : List Char) = .error ("Expecting value".toList) ∧
    analyzeResume (.ok ()) (.ok none) =
      .error (failMsg parseFailTag ("Expecting value".toList)) := by
  refine ⟨?_, rfl, rfl, rfl⟩
  intro t m h
  refine ⟨?_, ?_, ?_, ?_⟩
  · rw [parseGeminiResponse, h]
  · rw [parseJobMatchResponse, h]
  · simp [analyzeResume, wrapResumeOutcome, parseGeminiResponse, h]
  · simp [analyzeResumeForJob, wrapJobOutcome, parseJobMatchResponse, h]

/-- Witness for C4 at the reply `I cannot analyze this.`. -/
theorem non_json_reply_raises_parse_failure_witness :
    parseGeminiResponse
        ['I', ' ', 'c', 'a', 'n', 'n', 'o', 't', ' ', 'a', 'n', 'a', 'l', 'y', 'z', 'e',
         ' ', 't', 'h', 'i', 's', '.'] =
      .error (.jsonDecode ("Expecting value".toList)) :=
  (non_json_reply_raises_parse_failure.1
    ['I', ' ', 'c', 'a', 'n', 'n', 'o', 't', ' ', 'a', 'n', 'a', 'l', 'y', 'z', 'e',
     ' ', 't', 'h', 'i', 's', '.'] ("Expecting value".toList) rfl).1

/-- Counterexample to C5: the path `".txt"` ends in `.txt`, yet
`os.path.splitext` gives it no extension (its basename is all leading dots),
so both orchestrators send it through the file-attachment path with the
default MIME type instead of the inline-text path. -/
theorem dot_txt_path_takes_upload_path :
    endsWith (".txt".toList) (".txt".toList) = true ∧
    analyzeResumeFromFilePlan (".txt".toList) = .upload "application/pdf" ∧
    analyzeResumeFileForJobPlan (".txt".toList) = .upload "application/pdf" ∧
    (ResumeFilePlan.upload "application/pdf" ≠ ResumeFilePlan.inlineText) :=
  ⟨rfl, rfl, rfl, by decide⟩

/-- Claim C5 as amended: dispatch is on the lower-cased `os.path.splitext`
extension — `.txt` (which requires a non-dot character before it in the
basename) goes to the inline-text path, exactly once and with no upload;
every other extension goes to the file-attachment path with the MIME type
from the fixed table, `application/pdf` for unrecognized extensions. -/
theorem file_dispatch_by_splitext_extension :
    (∀ p : List Char,
      (lowerExt p = ".txt".toList →
        analyzeResumeFromFilePlan p = .inlineText ∧
        analyzeResumeFileForJobPlan p = .inlineText) ∧
      (lowerExt p ≠ ".txt".toList →
        analyzeResumeFromFilePlan p = .upload (mimeLookup (lowerExt p)) ∧
        analyzeResumeFileForJobPlan p = .upload (mimeLookup (lowerExt p)))) ∧
    mimeLookup (".pdf".toList) = "application/pdf" ∧
    mimeLookup (".doc".toList) = "application/msword" ∧
    mimeLookup (".docx".toList) =
      "application/vnd.openxmlformats-officedocument.wordprocessingml.document" ∧
    (∀ e : List Char, e ≠ ".pdf".toList → e ≠ ".doc".toList → e ≠ ".docx".toList →
      mimeLookup e = "application/pdf") := by
  refine ⟨?_, rfl, rfl, rfl, ?_⟩
  · intro p
    constructor
    · intro h
      exact ⟨by rw [analyzeResumeFromFilePlan, if_pos h],
             by rw [analyzeResumeFileForJobPlan, if_pos h]⟩
    · intro h
      exact ⟨by rw [analyzeResumeFromFilePlan, if_neg h],
             by rw [analyzeResumeFileForJobPlan, if_neg h]⟩
  · intro e h1 h2 h3
    have b1 : (e == ['.', 'p', 'd', 'f']) = false := beq_eq_false_iff_ne.mpr (by simpa using h1)
    have b2 : (e == ['.', 'd', 'o', 'c']) = false := beq_eq_false_iff_ne.mpr (by simpa using h2)
    have b3 : (e == ['.', 'd', 'o', 'c', 'x']) = false := beq_eq_false_iff_ne.mpr (by simpa using h3)
    simp [mimeLookup, mime_types, List.lookup, b1, b2, b3]

/-- Witness for amended C5: `resume.txt` goes inline, `resume.pdf` uploads,
the unrecognized extension `.xyz` falls back to `application/pdf`. -/
theorem file_dispatch_by_splitext_extension_witness :
    analyzeResumeFromFilePlan ("resume.txt".toList) = ResumeFilePlan.inlineText ∧
    analyzeResumeFromFilePlan ("resume.pdf".toList) =
      ResumeFilePlan.upload (mimeLookup (lowerExt ("resume.pdf".toList))) ∧
    mimeLookup (".xyz".toList) = "application/pdf" :=
  ⟨((file_dispatch_by_splitext_extension.1 ("resume.txt".toList)).1 rfl).1,
   ((file_dispatch_by_splitext_extension.1 ("resume.pdf".toList)).2 (by decide)).1,
   file_dispatch_by_splitext_extension.2.2.2.2 (".xyz".toList)
     (by decide) (by decide) (by decide)⟩

/-- Claim C10: both orchestrators lower-case the extension before dispatch,
so dispatch depends only on the lower-cased extension, and an upper-case
`.TXT` or `.PDF` path behaves exactly like its lower-case counterpart. -/
theorem extension_dispatch_case_insensitive :
    (∀ p q : List Char, lowerExt p = lowerExt q →
      analyzeResumeFromFilePlan p = analyzeResumeFromFilePlan q ∧
      analyzeResumeFileForJobPlan p = analyzeResumeFileForJobPlan q) ∧
    analyzeResumeFromFilePlan ("resume.TXT".toList) =
      analyzeResumeFromFilePlan ("resume.txt".toList) ∧
    analyzeResumeFromFilePlan ("resume.TXT".toList) = .inlineText ∧
    analyzeResumeFileForJobPlan ("resume.TXT".toList) = .inlineText ∧
    analyzeResumeFromFilePlan ("resume.PDF".toList) =
      analyzeResumeFromFilePlan ("resume.pdf".toList) ∧
    analyzeResumeFromFilePlan ("resume.PDF".toList) = .upload "application/pdf" ∧
    analyzeResumeFileForJobPlan ("resume.PDF".toList) = .upload "application/pdf" := by
  refine ⟨?_, rfl, rfl, rfl, rfl, rfl, rfl⟩
  intro p q h
  constructor <;> simp [analyzeResumeFromFilePlan, analyzeResumeFileForJobPlan, h]

/-- Witness for C10: a mixed-case path dispatches like its lower-case twin. -/
theorem extension_dispatch_case_insensitive_witness :
    analyzeResumeFromFilePlan ("cv.TxT".toList) =
      analyzeResumeFromFilePlan ("cv.txt".toList) :=
  (extension_dispatch_case_insensitive.1 ("cv.TxT".toList) ("cv.txt".toList) rfl).1

/-! ## Failure messages name the operation that failed -/

/-- A wrapped message is prefixed by its operation tag. -/
theorem namesFailedOp_failMsg {tag : List Char} (e : List Char)
    (h : tag ∈ opFailureTags) : namesFailedOp (failMsg tag e) = true := by
  rw [namesFailedOp, List.any_eq_true]
  exact ⟨tag, h, by rw [failMsg]; exact isPrefixOf_self_append tag _⟩

/-- Any error escaping the resume `except` clauses is tagged. -/
theorem wrapResumeOutcome_error_named {tag : List Char} (htag : tag ∈ opFailureTags)
    {x : Except PyError ResumeAnalysis} {m : List Char}
    (h : wrapResumeOutcome tag x = .error m) : namesFailedOp m = true := by
  cases x with
  | ok r => simp [wrapResumeOutcome] at h
  | error e =>
    cases e with
    | jsonDecode m' =>
      simp only [wrapResumeOutcome, Except.error.injEq] at h
      subst h
      exact namesFailedOp_failMsg m' (by simp [opFailureTags])
    | typeError m' =>
      simp only [wrapResumeOutcome, Except.error.injEq] at h
      subst h
      exact namesFailedOp_failMsg _ htag
    | attributeError m' =>
      simp only [wrapResumeOutcome, Except.error.injEq] at h
      subst h
      exact namesFailedOp_failMsg _ htag

/-- Any error escaping the job-match `except` clauses is tagged. -/
theorem wrapJobOutcome_error_named {tag : List Char} (htag : tag ∈ opFailureTags)
    {x : Except PyError JobMatchAnalysis} {m : List Char}
    (h : wrapJobOutcome tag x = .error m) : namesFailedOp m = true := by
  cases x with
  | ok r => simp [wrapJobOutcome] at h
  | error e =>
    cases e with
    | jsonDecode m' =>
      simp only [wrapJobOutcome, Except.error.injEq] at h
      subst h
      exact namesFailedOp_failMsg m' (by simp [opFailureTags])
    | typeError m' =>
      simp only [wrapJobOutcome, Except.error.injEq] at h
      subst h
      exact namesFailedOp_failMsg _ htag
    | attributeError m' =>
      simp only [wrapJobOutcome, Except.error.injEq] at h
      subst h
      exact namesFailedOp_failMsg _ htag

/-- Every failure of `analyze_resume` names an operation. -/
theorem analyzeResume_error_named (cfg : Except (List Char) Unit)
    (resp : Except (List Char) (Option (List Char))) :
    ∀ m, analyzeResume cfg resp = .error m → namesFailedOp m = true := by
  intro m h
  cases cfg with
  | error e =>
    simp only [analyzeResume, Except.error.injEq] at h
    subst h
    exact namesFailedOp_failMsg e (by simp [opFailureTags])
  | ok u =>
    cases resp with
    | error e =>
      simp only [analyzeResume, Except.error.injEq] at h
      subst h
      exact namesFailedOp_failMsg e (by simp [opFailureTags])
    | ok t =>
      simp only [analyzeResume] at h
      exact wrapResumeOutcome_error_named (by simp [opFailureTags]) h

/-- Every failure of `analyze_resume_for_job` names an operation. -/
theorem analyzeResumeForJob_error_named (cfg : Except (List Char) Unit)
    (resp : Except (List Char) (Option (List Char))) :
    ∀ m, analyzeResumeForJob cfg resp = .error m → namesFailedOp m = true := by
  intro m h
  cases cfg with
  | error e =>
    simp only [analyzeResumeForJob, Except.error.injEq] at h
    subst h
    exact namesFailedOp_failMsg e (by simp [opFailureTags])
  | ok u =>
    cases resp with
    | error e =>
      simp only [analyzeResumeForJob, Except.error.injEq] at h
      subst h
      exact namesFailedOp_failMsg e (by simp [opFailureTags])
    | ok t =>
      simp only [analyzeResumeForJob] at h
      exact wrapJobOutcome_error_named (by simp [opFailureTags]) h

/-- Every failure of `analyze_resume_from_file` names an operation. -/
theorem analyzeResumeFromFile_error_named (p : List Char)
    (cfg : Except (List Char) Unit) (readTxt : Except (List Char) (List Char))
    (readBin upload : Except (List Char) Unit)
    (resp : Except (List Char) (Option (List Char))) :
    ∀ m, analyzeResumeFromFile p cfg readTxt readBin upload resp = .error m →
      namesFailedOp m = true := by
  intro m h
  have hmem : resumeFileTag ∈ opFailureTags := by simp [opFailureTags]
  cases cfg with
  | error e =>
    simp only [analyzeResumeFromFile, Except.error.injEq] at h
    subst h
    exact namesFailedOp_failMsg e hmem
  | ok u =>
    by_cases hp : lowerExt p = ".txt".toList
    · simp only [analyzeResumeFromFile] at h
      rw [if_pos hp] at h
      cases readTxt with
      | error e =>
        simp only [Except.error.injEq] at h
        subst h
        exact namesFailedOp_failMsg e hmem
      | ok txt =>
        cases ha : analyzeResume (.ok u) resp with
        | error e =>
          rw [ha] at h
          simp only [Except.error.injEq] at h
          subst h
          exact namesFailedOp_failMsg e hmem
        | ok r => rw [ha] at h; simp at h
    · simp only [analyzeResumeFromFile] at h
      rw [if_neg hp] at h
      cases readBin with
      | error e =>
        simp only [Except.error.injEq] at h
        subst h
        exact namesFailedOp_failMsg e hmem
      | ok v =>
        cases upload with
        | error e =>
          simp only [Except.error.injEq] at h
          subst h
          exact namesFailedOp_failMsg e hmem
        | ok w =>
          cases resp with
          | error e =>
            simp only [Except.error.injEq] at h
            subst h
            exact namesFailedOp_failMsg e hmem
          | ok t => exact wrapResumeOutcome_error_named hmem h

/-- Every failure of `analyze_resume_file_for_job` names an operation. -/
theorem analyzeResumeFileForJob_error_named (p : List Char)
    (cfg : Except (List Char) Unit) (readTxt : Except (List Char) (List Char))
    (readBin upload : Except (List Char) Unit)
    (resp : Except (List Char) (Option (List Char))) :
    ∀ m, analyzeResumeFileForJob p cfg readTxt readBin upload resp = .error m →
      namesFailedOp m = true := by
  intro m h
  have hmem : fileForJobTag ∈ opFailureTags := by simp [opFailureTags]
  cases cfg with
  | error e =>
    simp only [analyzeResumeFileForJob, Except.error.injEq] at h
    subst h
    exact namesFailedOp_failMsg e hmem
  | ok u =>
    by_cases hp : lowerExt p = ".txt".toList
    · simp only [analyzeResumeFileForJob] at h
      rw [if_pos hp] at h
      cases readTxt with
      | error e =>
        simp only [Except.error.injEq] at h
        subst h
        exact namesFailedOp_failMsg e hmem
      | ok txt =>
        cases ha : analyzeResumeForJob (.ok u) resp with
        | error e =>
          rw [ha] at h
          simp only [Except.error.injEq] at h
          subst h
          exact namesFailedOp_failMsg e hmem
        | ok r => rw [ha] at h; simp at h
    · simp only [analyzeResumeFileForJob] at h
      rw [if_neg hp] at h
      cases readBin with
      | error e =>
        simp only [Except.error.injEq] at h
        subst h
        exact namesFailedOp_failMsg e hmem
      | ok v =>
        cases upload with
        | error e =>
          simp only [Except.error.injEq] at h
          subst h
          exact namesFailedOp_failMsg e hmem
        | ok w =>
          cases resp with
          | error e =>
            simp only [Except.error.injEq] at h
            subst h
            exact namesFailedOp_failMsg e hmem
          | ok t => exact wrapJobOutcome_error_named hmem h

/-- A record returned by `analyze_resume_from_file` proves every effect on
its branch succeeded: no partial result exists. -/
theorem analyzeResumeFromFile_ok_all_steps (p : List Char)
    (cfg : Except (List Char) Unit) (readTxt : Except (List Char) (List Char))
    (readBin upload : Except (List Char) Unit)
    (resp : Except (List Char) (Option (List Char))) :
    ∀ r, analyzeResumeFromFile p cfg readTxt readBin upload resp = .ok r →
      isErr cfg = false ∧ isErr resp = false ∧
      (lowerExt p = ".txt".toList → isErr readTxt = false) ∧
      (lowerExt p ≠ ".txt".toList → isErr readBin = false ∧ isErr upload = false) := by
  intro r h
  cases cfg with
  | error e => simp [analyzeResumeFromFile] at h
  | ok u =>
    by_cases hp : lowerExt p = ".txt".toList
    · simp only [analyzeResumeFromFile] at h
      rw [if_pos hp] at h
      cases readTxt with
      | error e => simp at h
      | ok txt =>
        cases ha : analyzeResume (.ok u) resp with
        | error e => rw [ha] at h; simp at h
        | ok r0 =>
          cases resp with
          | error e => simp [analyzeResume] at ha
          | ok t => exact ⟨rfl, rfl, fun _ => rfl, fun hc => absurd hp hc⟩
    · simp only [analyzeResumeFromFile] at h
      rw [if_neg hp] at h
      cases readBin with
      | error e => simp at h
      | ok v =>
        cases upload with
        | error e => simp at h
        | ok w =>
          cases resp with
          | error e => simp at h
          | ok t => exact ⟨rfl, rfl, fun hc => absurd hc hp, fun _ => ⟨rfl, rfl⟩⟩

/-- A record returned by `analyze_resume_file_for_job` proves every effect on
its branch succeeded: no partial result exists. -/
theorem analyzeResumeFileForJob_ok_all_steps (p : List Char)
    (cfg : Except (List Char) Unit) (readTxt : Except (List Char) (List Char))
    (readBin upload : Except (List Char) Unit)
    (resp : Except (List Char) (Option (List Char))) :
    ∀ q, analyzeResumeFileForJob p cfg readTxt readBin upload resp = .ok q →
      isErr cfg = false ∧ isErr resp = false ∧
      (lowerExt p = ".txt".toList → isErr readTxt = false) ∧
      (lowerExt p ≠ ".txt".toList → isErr readBin = false ∧ isErr upload = false) := by
  intro q h
  cases cfg with
  | error e => simp [analyzeResumeFileForJob] at h
  | ok u =>
    by_cases hp : lowerExt p = ".txt".toList
    · simp only [analyzeResumeFileForJob] at h
      rw [if_pos hp] at h
      cases readTxt with
      | error e => simp at h
      | ok txt =>
        cases ha : analyzeResumeForJob (.ok u) resp with
        | error e => rw [ha] at h; simp at h
        | ok q0 =>
          cases resp with
          | error e => simp [analyzeResumeForJob] at ha
          | ok t => exact ⟨rfl, rfl, fun _ => rfl, fun hc => absurd hp hc⟩
    · simp only [analyzeResumeFileForJob] at h
      rw [if_neg hp] at h
      cases readBin with
      | error e => simp at h
      | ok v =>
        cases upload with
        | error e => simp at h
        | ok w =>
          cases resp with
          | error e => simp at h
          | ok t => exact ⟨rfl, rfl, fun hc => absurd hc hp, fun _ => ⟨rfl, rfl⟩⟩

/-- Claim C9: every failure inside any of the four entry operations —
configuration, the AI call, the file work, or JSON parsing — reaches the
caller as exactly one analysis-failure signal (an `Except.error`, never a
partial record), whose message is prefixed by the tag of the operation that
failed (`Failed to analyze resume`, `Failed to analyze resume file for job`,
`Failed to parse AI response`, ...); and a returned record proves that
every step of its branch succeeded. -/
theorem failures_are_single_signals_naming_the_operation (p : List Char)
    (cfg : Except (List Char) Unit) (readTxt : Except (List Char) (List Char))
    (readBin upload : Except (List Char) Unit)
    (resp : Except (List Char) (Option (List Char))) :
    (∀ m, analyzeResume cfg resp = .error m → namesFailedOp m = true) ∧
    (∀ m, analyzeResumeForJob cfg resp = .error m → namesFailedOp m = true) ∧
    (∀ m, analyzeResumeFromFile p cfg readTxt readBin upload resp = .error m →
      namesFailedOp m = true) ∧
    (∀ m, analyzeResumeFileForJob p cfg readTxt readBin upload resp = .error m →
      namesFailedOp m = true) ∧
    (∀ e, cfg = .error e →
      analyzeResume cfg resp = .error (failMsg resumeTag e) ∧
      analyzeResumeForJob cfg resp = .error (failMsg forJobTag e) ∧
      analyzeResumeFromFile p cfg readTxt readBin upload resp =
        .error (failMsg resumeFileTag e) ∧
      analyzeResumeFileForJob p cfg readTxt readBin upload resp =
        .error (failMsg fileForJobTag e)) ∧
    (∀ e, resp = .error e →
      analyzeResume (.ok ()) resp = .error (failMsg resumeTag e) ∧
      analyzeResumeForJob (.ok ()) resp = .error (failMsg forJobTag e)) ∧
    (∀ t m, resp = .ok t → parseJson (clean (t.getD [])) = .error m →
      analyzeResume (.ok ()) resp = .error (failMsg parseFailTag m) ∧
      analyzeResumeForJob (.ok ()) resp = .error (failMsg parseFailTag m)) ∧
    (∀ e, lowerExt p ≠ ".txt".toList → upload = .error e → cfg = .ok () →
      readBin = .ok () →
      analyzeResumeFromFile p cfg readTxt readBin upload resp =
        .error (failMsg resumeFileTag e) ∧
      analyzeResumeFileForJob p cfg readTxt readBin upload resp =
        .error (failMsg fileForJobTag e)) ∧
    (∀ r, analyzeResumeFromFile p cfg readTxt readBin upload resp = .ok r →
      isErr cfg = false ∧ isErr resp = false ∧
      (lowerExt p = ".txt".toList → isErr readTxt = false) ∧
      (lowerExt p ≠ ".txt".toList → isErr readBin = false ∧ isErr upload = false)) ∧
    (∀ q, analyzeResumeFileForJob p cfg readTxt readBin upload resp = .ok q →
      isErr cfg = false ∧ isErr resp = false ∧
      (lowerExt p = ".txt".toList → isErr readTxt = false) ∧
      (lowerExt p ≠ ".txt".toList → isErr readBin = false ∧ isErr upload = false)) := by
  refine ⟨analyzeResume_error_named cfg resp, analyzeResumeForJob_error_named cfg resp,
    analyzeResumeFromFile_error_named p cfg readTxt readBin upload resp,
    analyzeResumeFileForJob_error_named p cfg readTxt readBin upload resp,
    ?_, ?_, ?_, ?_,
    analyzeResumeFromFile_ok_all_steps p cfg readTxt readBin upload resp,
    analyzeResumeFileForJob_ok_all_steps p cfg readTxt readBin upload resp⟩
  · intro e he
    subst he
    exact ⟨rfl, rfl, rfl, rfl⟩
  · intro e he
    subst he
    exact ⟨rfl, rfl⟩
  · intro t m ht hm
    subst ht
    constructor
    · simp [analyzeResume, wrapResumeOutcome, parseGeminiResponse, hm]
    · simp [analyzeResumeForJob, wrapJobOutcome, parseJobMatchResponse, hm]
  · intro e hp hu hc hb
    subst hu; subst hc; subst hb
    constructor
    · simp only [analyzeResumeFromFile]
      rw [if_neg hp]
    · simp only [analyzeResumeFileForJob]
      rw [if_neg hp]

/-- Witness for C9: a configuration failure surfaces as one tagged message. -/
theorem failures_are_single_signals_naming_the_operation_witness :
    namesFailedOp (failMsg resumeTag ("GEMINI_API_KEY is not configured".toList)) = true :=
  (failures_are_single_signals_naming_the_operation ("cv.pdf".toList)
    (.error ("GEMINI_API_KEY is not configured".toList)) (.ok []) (.ok ()) (.ok ())
    (.ok none)).1 _ rfl

end AtsPipeline
